/-
  Verification of the AutoMCP tool server (src/automcp.py) against its
  natural-language specification.

  The Python module is shallowly embedded: every tool function is translated
  to a pure Lean function.  File-system effects (the timestamped backup, the
  temporary file and the atomic rename) are represented by the *contents* the
  code writes, returned as an explicit write record; load results, generated
  UUIDs and clock readings are passed in as parameters.  Python dictionaries
  are modelled by structures; a JSON key that may be absent, null or a value
  is modelled by `Option (Option _)`.  Python truthiness on optional strings
  (`if not name`) is `strFalsy`; `x or d` on strings is `pyOr`.
-/
import Mathlib

set_option linter.unusedVariables false
set_option maxRecDepth 8000

/-! ## Python string helpers

Implemented on character lists by structural recursion (the library's
`Substring`-based versions are extensionally equal but do not reduce inside
the kernel, which concrete counterexamples need). -/

/-- Python `str.strip()` (whitespace at both ends). -/
def pyStrip (s : String) : String :=
  String.mk (((s.data.dropWhile Char.isWhitespace).reverse.dropWhile
    Char.isWhitespace).reverse)

/-- Python `str.lower()`. -/
def pyLower (s : String) : String := String.mk (s.data.map Char.toLower)

/-- Python `s[:n]` for `n ≥ 0`. -/
def pyTake (s : String) (n : Nat) : String := String.mk (s.data.take n)

/-- Splitting into whitespace-separated words, accumulating the current word
reversed. -/
def wordsAux (cur : List Char) : List Char → List (List Char)
  | [] => if cur.isEmpty then [] else [cur.reverse]
  | c :: cs =>
    if c.isWhitespace then
      if cur.isEmpty then wordsAux [] cs else cur.reverse :: wordsAux [] cs
    else wordsAux (c :: cur) cs

/-- Python `s.split()` : split on whitespace runs, dropping empty pieces. -/
def pySplitWS (s : String) : List String := (wordsAux [] s.data).map String.mk

/-- Python `" ".join(s.split())` as used by `create_folder` to collapse
whitespace inside the folder name. -/
def collapseWS (s : String) : String := String.intercalate " " (pySplitWS s)

/-- Python falsiness of an optional string argument: `None` or `""`. -/
def strFalsy : Option String → Bool
  | none => true
  | some s => s = ""

/-- Python `x or d` where `x` is an optional string and `d` a default. -/
def pyOr (x : Option String) (d : String) : String :=
  match x with
  | none => d
  | some s => if s = "" then d else s

/-- `leadSeg n h` : the char list `n` is an initial segment of `h`. -/
def leadSeg : List Char → List Char → Bool
  | [], _ => true
  | _ :: _, [] => false
  | a :: xs, b :: ys => a == b && leadSeg xs ys

/-- `segIn n h` : `n` occurs as a contiguous segment of `h`. -/
def segIn (needle : List Char) : List Char → Bool
  | [] => needle.isEmpty
  | b :: bs => leadSeg needle (b :: bs) || segIn needle bs

/-- Python `needle in hay` on strings (substring containment). -/
def strContains (hay needle : String) : Bool := segIn needle.toList hay.toList

/-- Python slice `l[a:b]` with signed bounds. -/
def pySlice {α : Type} (l : List α) (a b : Int) : List α :=
  let n : Int := l.length
  let start : Int := if a < 0 then max (n + a) 0 else min a n
  let stop : Int := if b < 0 then max (n + b) 0 else min b n
  (l.take stop.toNat).drop start.toNat

/-! ## Data model

Records as stored in `experts.json` and `history.json`.  Numeric timestamps
are `Int` (Python ints); `c.get(k) or 0` on a timestamp collapses an
absent/null value to `0`, so a timestamp field is modelled directly as the
integer the code computes with. -/

/-- One record of the `experts.json` top-level array. -/
structure Expert where
  id : String
  type : String
  state : String
  name : Option String
  prompt : Option String
  triggerApps : List String
deriving DecidableEq, Repr, Inhabited

/-- The body of a message: a plain string, or a structured (list/dict/null)
value represented by its compact `json.dumps` rendering. -/
inductive MsgContent where
  | str (s : String)
  | other (rendering : String)
deriving DecidableEq, Repr, Inhabited

/-- One chat message.  `text` is `some s` exactly when the stored dict has a
`"text"` key holding a string (messages built by `create_chat` never do). -/
structure Message where
  role : String
  type : String
  attachments : List String
  uuid : String
  engine : String
  model : String
  createdAt : Int
  expert : Option String
  deepResearch : Bool
  toolCalls : List String
  usage : Option String
  transient : Bool
  uiOnly : Bool
  text : Option String
  content : MsgContent
deriving DecidableEq, Repr, Inhabited

/-- One chat of `history.json`. -/
structure Chat where
  uuid : String
  title : String
  createdAt : Int
  lastModified : Int
  engine : String
  model : String
  disableStreaming : Bool
  tools : List String
  locale : Option String
  docrepo : Option String
  messages : List Message
deriving DecidableEq, Repr, Inhabited

/-- One folder of `history.json`. -/
structure Folder where
  id : String
  name : String
  chats : List String
  createdAt : Int
  lastModified : Int
deriving DecidableEq, Repr, Inhabited

/-- The `history.json` document.  Each top-level key may be absent (`none`),
present but null (`some none`) or present with a list (`some (some l)`) —
the three cases `data.get(k)`, `data.setdefault(k, v)` and `data[k]`
distinguish. -/
structure HistoryDoc where
  folders : Option (Option (List Folder))
  chats : Option (Option (List Chat))
deriving DecidableEq, Repr, Inhabited

/-- `data.get("folders") or []` / `data.get("chats") or []` : the list the
read paths iterate over (absent, null and `[]` all give `[]`, and for `[]`
the `or` produces a *fresh* list not aliased to the document). -/
def fieldList {α : Type} : Option (Option (List α)) → List α
  | some (some l) => l
  | _ => []

/-! ## `_now_ms` : monotonic millisecond clock -/

/-- `_now_ms` given the stored `_PREV_NOW_MS` and the raw clock reading
`time.time_ns() // 1_000_000`; the result is also the new `_PREV_NOW_MS`. -/
def now_ms (prev clock : Int) : Int :=
  if clock ≤ prev then prev + 1 else clock

/-- The successive `_now_ms` results for a list of raw clock readings,
threading `_PREV_NOW_MS`. -/
def nowSeq (prev : Int) : List Int → List Int
  | [] => []
  | c :: cs => now_ms prev c :: nowSeq (now_ms prev c) cs

/-! ## `_safe_message_text` -/

/-- `_safe_message_text(msg)` : the `text` field if it is a string, else a
string `content`, else the compact rendering of `content` truncated to 2000
characters (`json.dumps(content, ensure_ascii=False)[:2000]`). -/
def safe_message_text (m : Message) : String :=
  match m.text with
  | some t => t
  | none =>
    match m.content with
    | .str s => s
    | .other rendering => pyTake rendering 2000

/-! ## `_parse_order` and the `get_chats` sort -/

/-- `_parse_order(order)` : returns `(key, reverse)`.  Note the source's
`reverse or (key in {"lastModified", "createdAt"})`: a timestamp key is
always sorted in reverse, prefixed or not. -/
def parse_order (order : String) : String × Bool :=
  if order = "" then ("lastModified", true)
  else
    let reverse := leadSeg ['-'] order.data
    let key := if reverse then String.mk (order.data.drop 1) else order
    let key :=
      if key = "lastModified" ∨ key = "createdAt" ∨ key = "title" then key
      else "lastModified"
    (key, reverse || (key = "lastModified" || key = "createdAt"))

/-- The sort-key tuple for the timestamp branch of `get_chats`.  String
components are compared as their character lists (Python compares strings by
code points, which is exactly the lexicographic order on `List Char`). -/
def chatKeyTS (key : String) (reverse : Bool) (c : Chat) : Int × Int × List Char :=
  let lm := c.lastModified
  let ca := c.createdAt
  let uid := c.uuid.data
  let primary := if key = "lastModified" then lm else ca
  let secondary := if key = "lastModified" then ca else lm
  if reverse then (-primary, -secondary, uid) else (primary, secondary, uid)

/-- The sort-key tuple for the `title` branch of `get_chats`. -/
def chatKeyTitle (reverse : Bool) (c : Chat) : List Char × Int × List Char :=
  let t := (pyLower c.title).data
  if reverse then (t, -c.lastModified, c.uuid.data) else (t, c.lastModified, c.uuid.data)

/-- Lexicographic `≤` on triples, Python tuple comparison. -/
def lex3 {α β γ : Type} [LinearOrder α] [LinearOrder β] [LinearOrder γ]
    (a b : α × β × γ) : Prop :=
  a.1 < b.1 ∨ (a.1 = b.1 ∧ (a.2.1 < b.2.1 ∨ (a.2.1 = b.2.1 ∧ a.2.2 ≤ b.2.2)))

instance {α β γ : Type} [LinearOrder α] [LinearOrder β] [LinearOrder γ] :
    DecidableRel (lex3 (α := α) (β := β) (γ := γ)) := fun a b => by
  unfold lex3; infer_instance

theorem lex3_total {α β γ : Type} [LinearOrder α] [LinearOrder β] [LinearOrder γ]
    (a b : α × β × γ) : lex3 a b ∨ lex3 b a := by
  unfold lex3
  rcases lt_trichotomy a.1 b.1 with h | h | h
  · exact Or.inl (Or.inl h)
  · rcases lt_trichotomy a.2.1 b.2.1 with h2 | h2 | h2
    · exact Or.inl (Or.inr ⟨h, Or.inl h2⟩)
    · rcases le_total a.2.2 b.2.2 with h3 | h3
      · exact Or.inl (Or.inr ⟨h, Or.inr ⟨h2, h3⟩⟩)
      · exact Or.inr (Or.inr ⟨h.symm, Or.inr ⟨h2.symm, h3⟩⟩)
    · exact Or.inr (Or.inr ⟨h.symm, Or.inl h2⟩)
  · exact Or.inr (Or.inl h)

theorem lex3_trans {α β γ : Type} [LinearOrder α] [LinearOrder β] [LinearOrder γ]
    {a b c : α × β × γ} (hab : lex3 a b) (hbc : lex3 b c) : lex3 a c := by
  unfold lex3 at *
  rcases hab with h1 | ⟨e1, h1⟩
  · rcases hbc with h2 | ⟨e2, _⟩
    · exact Or.inl (h1.trans h2)
    · exact Or.inl (e2 ▸ h1)
  · rcases hbc with h2 | ⟨e2, h2⟩
    · exact Or.inl (e1 ▸ h2)
    · refine Or.inr ⟨e1.trans e2, ?_⟩
      rcases h1 with h1 | ⟨f1, h1⟩
      · rcases h2 with h2 | ⟨f2, _⟩
        · exact Or.inl (h1.trans h2)
        · exact Or.inl (f2 ▸ h1)
      · rcases h2 with h2 | ⟨f2, h2⟩
        · exact Or.inl (f1 ▸ h2)
        · exact Or.inr ⟨f1.trans f2, h1.trans h2⟩

instance {α β γ : Type} [LinearOrder α] [LinearOrder β] [LinearOrder γ] :
    IsTotal (α × β × γ) lex3 := ⟨lex3_total⟩

instance {α β γ : Type} [LinearOrder α] [LinearOrder β] [LinearOrder γ] :
    IsTrans (α × β × γ) lex3 := ⟨fun _ _ _ => lex3_trans⟩

/-- The ordering relation on chats induced by a timestamp sort key. -/
def chatLE_TS (key : String) (reverse : Bool) (c d : Chat) : Prop :=
  lex3 (chatKeyTS key reverse c) (chatKeyTS key reverse d)

/-- The ordering relation on chats induced by the `title` sort key. -/
def chatLE_Title (reverse : Bool) (c d : Chat) : Prop :=
  lex3 (chatKeyTitle reverse c) (chatKeyTitle reverse d)

instance {key : String} {reverse : Bool} : DecidableRel (chatLE_TS key reverse) :=
  fun c d => by unfold chatLE_TS; infer_instance

instance {reverse : Bool} : DecidableRel (chatLE_Title reverse) :=
  fun c d => by unfold chatLE_Title; infer_instance

instance {key : String} {reverse : Bool} : IsTotal Chat (chatLE_TS key reverse) :=
  ⟨fun c d => lex3_total _ _⟩

instance {key : String} {reverse : Bool} : IsTrans Chat (chatLE_TS key reverse) :=
  ⟨fun _ _ _ => lex3_trans⟩

instance {reverse : Bool} : IsTotal Chat (chatLE_Title reverse) :=
  ⟨fun c d => lex3_total _ _⟩

instance {reverse : Bool} : IsTrans Chat (chatLE_Title reverse) :=
  ⟨fun _ _ _ => lex3_trans⟩

/-- The `chats.sort(key=key_tuple)` step of `get_chats` (a stable sort by the
key tuple selected by `_parse_order`; `List.insertionSort` is stable, as is
Python's sort, so the results agree). -/
def sortChats (order : String) (chats : List Chat) : List Chat :=
  let pr := parse_order order
  let key := pr.1
  let reverse := pr.2
  if key = "lastModified" ∨ key = "createdAt" then
    List.insertionSort (chatLE_TS key reverse) chats
  else
    List.insertionSort (chatLE_Title reverse) chats

/-! ## `get_chats` -/

/-- The outcome of `get_chats` (the formatted text block is determined by
these fields; error strings are collapsed to their constructors). -/
inductive GetChatsResult where
  | errLoad
  | errFolder (folderId : String)
  | page (total : Nat) (chats : List Chat)
deriving DecidableEq, Repr

/-- The filter-then-sort prefix of `get_chats`: the chat list (optionally
restricted to one folder's `chats` id list) sorted by the requested order.
`none` when `folder_id` was given but no folder has that id. -/
def getChatsSorted (data : HistoryDoc) (folder_id : Option String)
    (order : String) : Option (List Chat) :=
  let chats := fieldList data.chats
  if strFalsy folder_id then some (sortChats order chats)
  else
    let folders := fieldList data.folders
    match folders.find? (fun f => some f.id == folder_id) with
    | none => none
    | some fr =>
      some (sortChats order (chats.filter (fun c => fr.chats.contains c.uuid)))

/-- `get_chats(folder_id, limit, offset, order)` given the loaded document
(`none` = any `_load_history` failure). -/
def get_chats (load : Option HistoryDoc) (folder_id : Option String)
    (limit offset : Int) (order : String) : GetChatsResult :=
  match load with
  | none => .errLoad
  | some data =>
    match getChatsSorted data folder_id order with
    | none => .errFolder (folder_id.getD "")
    | some sorted => .page sorted.length (pySlice sorted offset (offset + max 0 limit))

/-! ## `search_history` -/

/-- `match_chat(c)` from `search_history`: `(matched, snippet)`.  `ql` is the
lower-cased stripped query, `in_` the raw scope argument, `fromMs`/`toMs`
the date bounds already converted to epoch milliseconds. -/
def findSnippet (ql : String) : List Message → Bool × Option String
  | [] => (false, none)
  | m :: rest =>
    if strContains (pyLower (safe_message_text m)) ql then
      let snippet := safe_message_text m
      (true, some (if snippet.length > 200 then pyTake snippet 200 ++ "..." else snippet))
    else findSnippet ql rest

/-- `scope = in_.lower() if in_ else "both"` from `match_chat`. -/
def scopeOf (in_ : String) : String := if in_ = "" then "both" else pyLower in_

def match_chat (ql : String) (in_ : String) (fromMs toMs : Option Int)
    (engine model : Option String) (c : Chat) : Bool × Option String :=
  if !strFalsy engine ∧ some c.engine ≠ engine then (false, none)
  else if !strFalsy model ∧ some c.model ≠ model then (false, none)
  else if fromMs.any (fun f =>
      decide (c.lastModified < f) && decide (c.createdAt < f)) then (false, none)
  else if toMs.any (fun t =>
      decide (c.createdAt > t) && decide (c.lastModified > t)) then (false, none)
  else if (scopeOf in_ = "titles" ∨ scopeOf in_ = "both") ∧
      strContains (pyLower c.title) ql then (true, none)
  else if scopeOf in_ = "messages" ∨ scopeOf in_ = "both" then
    findSnippet ql c.messages
  else (false, none)

/-- Descending-by-`lastModified` relation used by
`results.sort(key=..., reverse=True)` (Python's `reverse=True` keeps ties in
input order, exactly as a stable sort by the opposite relation does). -/
def resLE (a b : Chat × Option String) : Prop :=
  b.1.lastModified ≤ a.1.lastModified

instance : DecidableRel resLE := fun a b => by unfold resLE; infer_instance

instance : IsTotal (Chat × Option String) resLE :=
  ⟨fun a b => le_total b.1.lastModified a.1.lastModified⟩

instance : IsTrans (Chat × Option String) resLE :=
  ⟨fun _ _ _ h1 h2 => le_trans h2 h1⟩

/-- The filter-then-sort prefix of `search_history`: matched `(chat, snippet)`
pairs, sorted by `lastModified` descending. -/
def searchSorted (chats : List Chat) (ql : String) (in_ : String)
    (fromMs toMs : Option Int) (engine model : Option String) :
    List (Chat × Option String) :=
  let results := chats.filterMap (fun c =>
    let r := match_chat ql in_ fromMs toMs engine model c
    if r.1 then some (c, r.2) else none)
  List.insertionSort resLE results

/-- The outcome of `search_history`. -/
inductive SearchResult where
  | errLoad
  | errEmptyQuery
  | page (total : Nat) (rows : List (Chat × Option String))
deriving DecidableEq, Repr

/-- `search_history(query, in_, …)` given the loaded document and the date
bounds already converted to epoch ms (the conversion itself —
`datetime.fromisoformat` in the local timezone — is not modelled). -/
def search_history (load : Option HistoryDoc) (query : String) (in_ : String)
    (fromMs toMs : Option Int) (engine model : Option String)
    (limit offset : Int) : SearchResult :=
  match load with
  | none => .errLoad
  | some data =>
    let chats := fieldList data.chats
    let q := pyStrip query
    if q = "" then .errEmptyQuery
    else
      let sorted := searchSorted chats (pyLower q) in_ fromMs toMs engine model
      .page sorted.length (pySlice sorted offset (offset + max 0 limit))

/-! ## Mutating operations on `experts.json`

A persist is represented by the pair of file contents the code writes: the
timestamped `.bak` file and the document renamed over `experts.json`; a write
record of `none` means the call wrote nothing. -/

/-- The two files written by the persist step on `experts.json`. -/
structure ExpertsWrite where
  backup : List Expert
  written : List Expert
deriving DecidableEq, Repr

/-- `current[idx] = updated` where `idx = matches[0]` is the index of the
first record satisfying the predicate; replacing the first match. -/
def setFirstBy {α : Type} (p : α → Bool) (v : α) : List α → List α
  | [] => []
  | x :: xs => if p x then v :: xs else x :: setFirstBy p v xs

/-- The outcome of `create_expert`. -/
inductive CreateExpertResult where
  | errNoPath
  | errNoFile
  | errMissingData
  | errRead
  | preview (candidate : Expert) (dupWarn : Bool)
  | persisted (id : String)
deriving DecidableEq, Repr

/-- `create_expert(name, prompt, confirm)`.  `pathSet` is whether the base
directory is configured, `fileExists` whether `experts.json` exists,
`parsed` the parse result of the file (`none` = exception), `genId` the
`uuid.uuid4()` drawn for the new record. -/
def create_expert (pathSet fileExists : Bool) (parsed : Option (List Expert))
    (name prompt : Option String) (confirm : Bool) (genId : String) :
    CreateExpertResult × Option ExpertsWrite :=
  if !pathSet then (.errNoPath, none)
  else if !fileExists then (.errNoFile, none)
  else if strFalsy name || strFalsy prompt then (.errMissingData, none)
  else
    let newObj : Expert :=
      { id := genId, type := "user", state := "enabled",
        name := name, prompt := prompt, triggerApps := [] }
    match parsed with
    | none => (.errRead, none)
    | some current =>
      let dup := current.any (fun e => e.name == name)
      if !confirm then (.preview newObj dup, none)
      else (.persisted genId, some ⟨current, current ++ [newObj]⟩)

/-- The outcome of `update_expert`. -/
inductive UpdateExpertResult where
  | errNoPath
  | errNoFile
  | errNeedIdOrName
  | errRead
  | notFound
  | ambiguous
  | noChanges
  | invalidState
  | preview (old updated : Expert)
  | persisted (id : String)
deriving DecidableEq, Repr

/-- `update_expert(id, name, new_name, new_prompt, new_state, confirm)`.
The source collects the list of matching indices; `matches == []` is
`find? = none`, `len(matches) > 1` is `countP > 1`, and `matches[0]` is the
first match, so writing replaces the first matching record. -/
def update_expert (pathSet fileExists : Bool) (parsed : Option (List Expert))
    (id name new_name new_prompt new_state : Option String) (confirm : Bool) :
    UpdateExpertResult × Option ExpertsWrite :=
  if !pathSet then (.errNoPath, none)
  else if !fileExists then (.errNoFile, none)
  else if strFalsy id && strFalsy name then (.errNeedIdOrName, none)
  else
    match parsed with
    | none => (.errRead, none)
    | some current =>
      let p : Expert → Bool :=
        if !strFalsy id then (fun e => some e.id == id) else (fun e => e.name == name)
      match current.find? p with
      | none => (.notFound, none)
      | some old =>
        if 1 < current.countP p then (.ambiguous, none)
        else if new_name = none ∧ new_prompt = none ∧ new_state = none then
          (.noChanges, none)
        else
          let u1 := match new_name with
            | some s => { old with name := some s }
            | none => old
          let u2 := match new_prompt with
            | some s => { u1 with prompt := some s }
            | none => u1
          let stateBad := match new_state with
            | some s => decide (s ≠ "enabled" ∧ s ≠ "disabled")
            | none => false
          if stateBad then (.invalidState, none)
          else
            let updated := match new_state with
              | some s => { u2 with state := s }
              | none => u2
            if !confirm then (.preview old updated, none)
            else (.persisted updated.id, some ⟨current, setFirstBy p updated current⟩)

/-! ## Mutating operations on `history.json` -/

/-- The two files written by `_write_history_atomic(updated, target)`: the
function dumps its `updated` argument both to the timestamped `.bak` file
and to the `.tmp` file that is renamed over `history.json`. -/
structure HistoryWrite where
  backup : HistoryDoc
  written : HistoryDoc
deriving DecidableEq, Repr

/-- The outcome of `create_folder`. -/
inductive CreateFolderResult where
  | errName
  | errLoad
  | preview (candidate : Folder) (dupWarn : Bool)
  | persisted (id : String)
deriving DecidableEq, Repr

/-- The `folders` field after `data.setdefault("folders", folders)` followed
by `folders.append(folder_obj)`, where `folders = data.get("folders") or []`.
The local list aliases the document only when the key held a non-empty list
(then `or` returns it unchanged) or was absent (then `setdefault` installs
the fresh list); when the key held `null` or `[]`, `or` built a fresh list,
`setdefault` left the document alone, and the append is lost. -/
def appendToField {α : Type} (field : Option (Option (List α))) (v : α) :
    Option (Option (List α)) :=
  match field with
  | none => some (some [v])
  | some none => some none
  | some (some []) => some (some [])
  | some (some l) => some (some (l ++ [v]))

/-- `create_folder(name, confirm)`.  `load` is the `_load_history()` result
(`none` = any load failure), `genId` the generated uuid, `now` the
`_now_ms()` reading. -/
def create_folder (load : Option HistoryDoc) (name : String) (confirm : Bool)
    (genId : String) (now : Int) : CreateFolderResult × Option HistoryWrite :=
  let nameNorm := pyStrip name
  if nameNorm = "" then (.errName, none)
  else
    match load with
    | none => (.errLoad, none)
    | some data =>
      let folders := fieldList data.folders
      let folderObj : Folder :=
        { id := genId, name := collapseWS nameNorm, chats := [],
          createdAt := now, lastModified := now }
      let warn := folders.any (fun f => f.name == folderObj.name)
      if !confirm then (.preview folderObj warn, none)
      else
        let newData : HistoryDoc :=
          { data with folders := appendToField data.folders folderObj }
        (.persisted genId, some ⟨newData, newData⟩)

/-- An entry of the `initial_messages` argument of `create_chat` (a dict with
optional `role`, `text`, `content` keys; non-dict entries are rejected by the
source and not modelled). -/
structure InMsg where
  role : Option String
  text : Option String
  content : Option String
deriving DecidableEq, Repr

/-- The outcome of `create_chat`. -/
inductive CreateChatResult where
  | errTitle
  | errEngine
  | errModel
  | errLoad
  | errFolder (folderId : String)
  | errRole
  | preview (candidate : Chat) (folderRef : Option Folder)
  | persisted (uuid : String) (folderRef : Option Folder)
deriving DecidableEq, Repr

/-- The message-building loop of `create_chat`: validates each role and
builds the stored message records; `none` when some entry has a role outside
`{system, user, assistant}` (the source returns the error immediately).
`msgUuid i` / `msgTime i` are the `uuid.uuid4()` and `_now_ms()` drawn for
the `i`-th message. -/
def buildMsgs (engineNorm modelNorm : String) (msgUuid : Nat → String)
    (msgTime : Nat → Int) : List InMsg → Nat → Option (List Message)
  | [], _ => some []
  | m :: rest, i =>
    let role := pyLower (pyStrip (m.role.getD ""))
    let text := pyOr m.text (pyOr m.content "")
    if role = "system" ∨ role = "user" ∨ role = "assistant" then
      match buildMsgs engineNorm modelNorm msgUuid msgTime rest (i + 1) with
      | some tail =>
        some ({ role := role, type := "text", attachments := [],
                uuid := msgUuid i, engine := engineNorm, model := modelNorm,
                createdAt := msgTime i, expert := none, deepResearch := false,
                toolCalls := [], usage := none, transient := false,
                uiOnly := false, text := none, content := .str text } :: tail)
      | none => none
    else none

/-- `create_chat(title, engine, model, folder_id, initial_messages,
disableStreaming, tools, locale, docrepo, confirm)`.  `chatUuid` and `now`
are the uuid and `_now_ms()` drawn for the chat, `msgUuid`/`msgTime` those
drawn per initial message. -/
def create_chat (load : Option HistoryDoc) (title : String)
    (engine model folder_id : Option String)
    (initial_messages : Option (List InMsg)) (disableStreaming : Bool)
    (tools : Option (List String)) (locale docrepo : Option String)
    (confirm : Bool) (chatUuid : String) (now : Int)
    (msgUuid : Nat → String) (msgTime : Nat → Int) :
    CreateChatResult × Option HistoryWrite :=
  let titleNorm := pyStrip title
  let engineNorm := pyLower (pyStrip (pyOr engine "anthropic"))
  let modelNorm := pyStrip (pyOr model "claude-sonnet-4-20250514")
  if titleNorm = "" then (.errTitle, none)
  else if engineNorm = "" then (.errEngine, none)
  else if modelNorm = "" then (.errModel, none)
  else
    match load with
    | none => (.errLoad, none)
    | some data =>
      let chats := fieldList data.chats
      let folders := fieldList data.folders
      let folderRef : Option (Option Folder) :=
        if !strFalsy folder_id then
          match folders.find? (fun f => some f.id == folder_id) with
          | none => none
          | some fr => some (some fr)
        else some none
      match folderRef with
      | none => (.errFolder (folder_id.getD ""), none)
      | some folderRef =>
        match buildMsgs engineNorm modelNorm msgUuid msgTime
            (initial_messages.getD []) 0 with
        | none => (.errRole, none)
        | some builtMessages =>
          let chatObj : Chat :=
            { uuid := chatUuid,
              title := if titleNorm.length ≤ 512 then titleNorm else pyTake titleNorm 512,
              createdAt := now, lastModified := now,
              engine := engineNorm, model := modelNorm,
              disableStreaming := disableStreaming,
              tools := tools.getD [],
              locale := match locale with
                | some s => if s = "" then none else some s
                | none => none,
              docrepo := match docrepo with
                | some s => if s = "" then none else some s
                | none => none,
              messages := builtMessages }
          if !confirm then (.preview chatObj folderRef, none)
          else
            let newChats := appendToField data.chats chatObj
            let newFolders :=
              match folderRef with
              | none => data.folders
              | some fr =>
                let fr2 : Folder :=
                  { fr with
                    chats := if fr.chats.contains chatUuid then fr.chats
                             else fr.chats ++ [chatUuid],
                    lastModified := max fr.lastModified now }
                match data.folders with
                | some (some l) =>
                  some (some (setFirstBy (fun f => some f.id == folder_id) fr2 l))
                | other => other
            let newData : HistoryDoc := { folders := newFolders, chats := newChats }
            (.persisted chatUuid folderRef, some ⟨newData, newData⟩)

/-! ## Theorems -/

theorem now_ms_gt (prev c : Int) : prev < now_ms prev c := by
  unfold now_ms; split <;> omega

/-- C9: millisecond timestamps produced by `_now_ms` are strictly increasing
across successive calls in one process lifetime — for any starting
`_PREV_NOW_MS` and any sequence of raw clock readings the produced values
form a strictly increasing chain — and a reading that ties with (or falls
behind) the previous value is resolved by returning the previous value
plus 1 ms. -/
theorem c9_now_ms_monotone :
    (∀ (prev : Int) (cs : List Int), (nowSeq prev cs).Chain' (· < ·)) ∧
    (∀ (prev c : Int), now_ms prev c = if c ≤ prev then prev + 1 else c) := by
  constructor
  · intro prev cs
    induction cs generalizing prev with
    | nil => simp [nowSeq]
    | cons c cs ih =>
      rw [nowSeq]
      rcases cs with _ | ⟨c2, cs2⟩
      · simp [nowSeq]
      · rw [nowSeq]
        exact List.Chain'.cons (now_ms_gt _ _) (by simpa [nowSeq] using ih (now_ms prev c))
  · intro prev c
    rfl

/-- C10: when the loaded history document maps `folders` (resp. `chats`) to
null, `create_folder` (resp. `create_chat`) with `confirm=true` reports
success with the generated identifier, yet the document written to disk is
the unchanged input document, whose key still maps to null — the fresh list
built by `or []` is appended to, but `setdefault` left the null in place, so
the new record is silently lost. -/
theorem c10_null_field_lost_write :
    (∀ (d : HistoryDoc) (nm genId : String) (now : Int),
      d.folders = some none → pyStrip nm ≠ "" →
      create_folder (some d) nm true genId now = (.persisted genId, some ⟨d, d⟩)) ∧
    (∀ (d : HistoryDoc) (title chatUuid : String) (now : Int)
      (msgUuid : Nat → String) (msgTime : Nat → Int),
      d.chats = some none → pyStrip title ≠ "" →
      create_chat (some d) title none none none none false none none none true
          chatUuid now msgUuid msgTime = (.persisted chatUuid none, some ⟨d, d⟩)) := by
  constructor
  · intro d nm genId now hnull hnm
    cases d
    simp_all [create_folder, appendToField]
  · intro d title chatUuid now msgUuid msgTime hnull htitle
    cases d
    simp_all [create_chat, appendToField, buildMsgs, pyOr, pyStrip, strFalsy]
    decide

theorem findSnippet_fst_iff (ql : String) (msgs : List Message) :
    (findSnippet ql msgs).1 = true ↔
      ∃ m ∈ msgs, strContains (pyLower (safe_message_text m)) ql = true := by
  induction msgs with
  | nil => simp [findSnippet]
  | cons m rest ih =>
    by_cases h : strContains (pyLower (safe_message_text m)) ql = true
    · simp [findSnippet, h]
    · have hstep : findSnippet ql (m :: rest) = findSnippet ql rest := by
        simp [findSnippet, h]
      rw [hstep, ih]
      constructor
      · rintro ⟨x, hx, hc⟩
        exact ⟨x, List.mem_cons_of_mem m hx, hc⟩
      · rintro ⟨x, hx, hc⟩
        rcases List.mem_cons.mp hx with hx | hx
        · exact absurd (hx ▸ hc) h
        · exact ⟨x, hx, hc⟩

theorem anyLower_false_iff (fromMs : Option Int) (lm ca : Int) :
    ¬(fromMs.any (fun f => decide (lm < f) && decide (ca < f)) = true) ↔
      (match fromMs with | some f => f ≤ lm ∨ f ≤ ca | none => True) := by
  cases fromMs <;> simp <;> omega

theorem anyUpper_false_iff (toMs : Option Int) (lm ca : Int) :
    ¬(toMs.any (fun t => decide (ca > t) && decide (lm > t)) = true) ↔
      (match toMs with | some t => ca ≤ t ∨ lm ≤ t | none => True) := by
  cases toMs <;> simp <;> omega

/-- C7: in `search_history`, the date bounds are compared with an inclusive
overlap rule: `match_chat` accepts a chat exactly when the engine/model
filters pass, the chat passes the lower bound iff `lastModified ≥ from` or
`createdAt ≥ from`, passes the upper bound iff `createdAt ≤ to` or
`lastModified ≤ to`, and the text matches in the requested scope. -/
theorem c7_date_overlap_rule :
    ∀ (ql in_ : String) (fromMs toMs : Option Int) (engine model : Option String)
      (c : Chat),
      (match_chat ql in_ fromMs toMs engine model c).1 = true ↔
        ((strFalsy engine = true ∨ some c.engine = engine) ∧
         (strFalsy model = true ∨ some c.model = model) ∧
         (match fromMs with
          | some f => f ≤ c.lastModified ∨ f ≤ c.createdAt
          | none => True) ∧
         (match toMs with
          | some t => c.createdAt ≤ t ∨ c.lastModified ≤ t
          | none => True) ∧
         ((scopeOf in_ = "titles" ∨ scopeOf in_ = "both") ∧
            strContains (pyLower c.title) ql = true ∨
          (scopeOf in_ = "messages" ∨ scopeOf in_ = "both") ∧
            ∃ m ∈ c.messages, strContains (pyLower (safe_message_text m)) ql = true)) := by
  intro ql in_ fromMs toMs engine model c
  rw [match_chat]
  split_ifs with h1 h2 h3 h4 h5 h6
  · simp only [Bool.false_eq_true, false_iff]
    rintro ⟨he, -⟩
    rcases h1 with ⟨h1a, h1b⟩
    rcases he with he | he
    · rw [he] at h1a; exact absurd h1a (by decide)
    · exact h1b he
  · simp only [Bool.false_eq_true, false_iff]
    rintro ⟨-, hm, -⟩
    rcases h2 with ⟨h2a, h2b⟩
    rcases hm with hm | hm
    · rw [hm] at h2a; exact absurd h2a (by decide)
    · exact h2b hm
  · simp only [Bool.false_eq_true, false_iff]
    rintro ⟨-, -, hd, -⟩
    exact ((anyLower_false_iff fromMs c.lastModified c.createdAt).mpr hd) h3
  · simp only [Bool.false_eq_true, false_iff]
    rintro ⟨-, -, -, hd, -⟩
    exact ((anyUpper_false_iff toMs c.lastModified c.createdAt).mpr hd) h4
  · simp only [true_iff]
    refine ⟨?_, ?_, (anyLower_false_iff fromMs _ _).mp h3, (anyUpper_false_iff toMs _ _).mp h4,
      Or.inl h5⟩
    · by_cases hf : strFalsy engine = true
      · exact Or.inl hf
      · refine Or.inr (by_contra fun hne => h1 ⟨by simp [Bool.not_eq_true] at hf ⊢; exact hf, hne⟩)
    · by_cases hf : strFalsy model = true
      · exact Or.inl hf
      · refine Or.inr (by_contra fun hne => h2 ⟨by simp [Bool.not_eq_true] at hf ⊢; exact hf, hne⟩)
  · rw [findSnippet_fst_iff]
    constructor
    · intro hex
      refine ⟨?_, ?_, (anyLower_false_iff fromMs _ _).mp h3, (anyUpper_false_iff toMs _ _).mp h4,
        Or.inr ⟨h6, hex⟩⟩
      · by_cases hf : strFalsy engine = true
        · exact Or.inl hf
        · refine Or.inr (by_contra fun hne => h1 ⟨by simp [Bool.not_eq_true] at hf ⊢; exact hf, hne⟩)
      · by_cases hf : strFalsy model = true
        · exact Or.inl hf
        · refine Or.inr (by_contra fun hne => h2 ⟨by simp [Bool.not_eq_true] at hf ⊢; exact hf, hne⟩)
    · rintro ⟨-, -, -, -, htext⟩
      rcases htext with ⟨hsc, hct⟩ | ⟨-, hex⟩
      · exact absurd ⟨hsc, hct⟩ h5
      · exact hex
  · simp only [Bool.false_eq_true, false_iff]
    rintro ⟨-, -, -, -, htext⟩
    rcases htext with ⟨hsc, hct⟩ | ⟨hsc, -⟩
    · exact h5 ⟨hsc, hct⟩
    · exact h6 hsc

theorem take_congr_min {α : Type} (xs : List α) (i j : Nat)
    (h : min i xs.length = min j xs.length) : xs.take i = xs.take j := by
  have h1 : xs.take i = xs.take (min i xs.length) := by
    conv_lhs => rw [← List.take_length (l := xs), List.take_take]
  have h2 : xs.take j = xs.take (min j xs.length) := by
    conv_lhs => rw [← List.take_length (l := xs), List.take_take]
  rw [h1, h2, h]

/-- The Python slice `l[a : a + max(0, limit)]` for a non-negative offset is
"drop `a`, then take `max(0, limit)`". -/
theorem pySlice_drop_take {α : Type} (l : List α) (a lim : Int) (ha : 0 ≤ a) :
    pySlice l a (a + max 0 lim) = (l.drop a.toNat).take (max 0 lim).toNat := by
  simp only [pySlice]
  rw [if_neg (by omega), if_neg (by omega)]
  by_cases h : (l.length : Int) ≤ a
  · rw [min_eq_right h]
    have h1 : (l.take (min (a + max 0 lim) (l.length : Int)).toNat).length ≤
        ((l.length : Int)).toNat := by
      simp only [List.length_take]; omega
    rw [List.drop_eq_nil_of_le h1,
      List.drop_eq_nil_of_le (by omega : l.length ≤ a.toNat), List.take_nil]
  · push_neg at h
    rw [min_eq_left (by omega : a ≤ (l.length : Int))]
    rw [show (min (a + max 0 lim) (l.length : Int)).toNat =
        a.toNat + ((min (a + max 0 lim) (l.length : Int)).toNat - a.toNat) from by omega]
    rw [← List.take_drop]
    exact take_congr_min _ _ _ (by simp only [List.length_drop]; omega)

/-- A Python slice starting at or past the end of the list is empty. -/
theorem pySlice_oob {α : Type} (l : List α) (a b : Int)
    (h : (l.length : Int) ≤ a) : pySlice l a b = [] := by
  simp only [pySlice]
  rw [if_neg (by omega)]
  rw [min_eq_right h]
  apply List.drop_eq_nil_of_le
  simp only [List.length_take]
  by_cases hb : b < 0 <;> simp only [if_pos, if_neg, hb] <;> omega

/-- C5: for `get_chats` and `search_history`, the returned page is exactly
the Python slice `sorted_filtered[offset : offset + max(0, limit)]` of the
sorted, filtered row list; for a non-negative offset that slice is
drop-offset-take-limit with the limit clamped to non-negative; and an offset
at or past the end of the rows yields an empty page, not an error. -/
theorem c5_pagination :
    (∀ (data : HistoryDoc) (folder_id : Option String) (order : String)
       (limit offset : Int) (sorted : List Chat),
       getChatsSorted data folder_id order = some sorted →
       get_chats (some data) folder_id limit offset order =
         .page sorted.length (pySlice sorted offset (offset + max 0 limit))) ∧
    (∀ (data : HistoryDoc) (query in_ : String) (fromMs toMs : Option Int)
       (engine model : Option String) (limit offset : Int),
       pyStrip query ≠ "" →
       search_history (some data) query in_ fromMs toMs engine model limit offset =
         .page (searchSorted (fieldList data.chats) (pyLower (pyStrip query)) in_
             fromMs toMs engine model).length
           (pySlice (searchSorted (fieldList data.chats) (pyLower (pyStrip query)) in_
             fromMs toMs engine model) offset (offset + max 0 limit))) ∧
    (∀ {α : Type} (rows : List α) (limit offset : Int), 0 ≤ offset →
       pySlice rows offset (offset + max 0 limit) =
         (rows.drop offset.toNat).take (max 0 limit).toNat) ∧
    (∀ {α : Type} (rows : List α) (limit offset : Int), (rows.length : Int) ≤ offset →
       pySlice rows offset (offset + max 0 limit) = []) := by
  refine ⟨?_, ?_, fun rows lim off h => pySlice_drop_take rows off lim h,
    fun rows lim off h => pySlice_oob rows off _ h⟩
  · intro data folder_id order limit offset sorted hs
    simp [get_chats, hs]
  · intro data query in_ fromMs toMs engine model limit offset hq
    simp [search_history, hq]

/-- Concrete instance of `c5_pagination` at explicit inputs. -/
theorem c5_witness :
    get_chats (some ⟨some none, some none⟩) none 2 0 "-lastModified" =
      .page 0 (pySlice ([] : List Chat) 0 (0 + max 0 2)) ∧
    search_history (some ⟨some none, some none⟩) "q" "both" none none none none 2 0 =
      .page 0 (pySlice (searchSorted [] (pyLower (pyStrip "q")) "both" none none none none)
        0 (0 + max 0 2)) ∧
    pySlice [10, 20, 30] 1 (1 + max 0 5) = ([10, 20, 30].drop 1).take 5 ∧
    pySlice [10, 20, 30] 7 (7 + max 0 5) = ([] : List Int) :=
  ⟨c5_pagination.1 ⟨some none, some none⟩ none "-lastModified" 2 0 [] rfl,
   c5_pagination.2.1 ⟨some none, some none⟩ "q" "both" none none none none 2 0 (by decide),
   c5_pagination.2.2.1 [10, 20, 30] 5 1 (by decide),
   c5_pagination.2.2.2 [10, 20, 30] 5 7 (by decide)⟩

/-- C2: two-phase commit.  With the confirmation flag unset, none of the four
mutating operations writes anything — the write record is `none` for every
input, valid or not — and on inputs that pass validation the operation
returns the fully-built candidate record as a preview (for updates, both the
old and the new version). -/
theorem c2_no_write_without_confirm :
    (∀ (pathSet fileExists : Bool) (parsed : Option (List Expert))
       (name prompt : Option String) (genId : String),
       (create_expert pathSet fileExists parsed name prompt false genId).2 = none) ∧
    (∀ (pathSet fileExists : Bool) (parsed : Option (List Expert))
       (id name new_name new_prompt new_state : Option String),
       (update_expert pathSet fileExists parsed id name new_name new_prompt
         new_state false).2 = none) ∧
    (∀ (load : Option HistoryDoc) (name : String) (genId : String) (now : Int),
       (create_folder load name false genId now).2 = none) ∧
    (∀ (load : Option HistoryDoc) (title : String)
       (engine model folder_id : Option String)
       (initial_messages : Option (List InMsg)) (disableStreaming : Bool)
       (tools : Option (List String)) (locale docrepo : Option String)
       (chatUuid : String) (now : Int) (msgUuid : Nat → String) (msgTime : Nat → Int),
       (create_chat load title engine model folder_id initial_messages
         disableStreaming tools locale docrepo false chatUuid now msgUuid msgTime).2 =
         none) ∧
    (∀ (current : List Expert) (name prompt : Option String) (genId : String),
       strFalsy name = false → strFalsy prompt = false →
       create_expert true true (some current) name prompt false genId =
         (.preview ⟨genId, "user", "enabled", name, prompt, []⟩
           (current.any (fun e => e.name == name)), none)) ∧
    (∀ (current : List Expert) (id name new_name new_prompt new_state : Option String),
       ¬(strFalsy id = true ∧ strFalsy name = true) →
       (∃ r, update_expert true true (some current) id name new_name new_prompt
           new_state false = (r, none) ∧
         (r = .notFound ∨ r = .ambiguous ∨ r = .noChanges ∨ r = .invalidState ∨
          ∃ old updated, r = .preview old updated))) ∧
    (∀ (data : HistoryDoc) (name : String) (genId : String) (now : Int),
       pyStrip name ≠ "" →
       create_folder (some data) name false genId now =
         (.preview ⟨genId, collapseWS (pyStrip name), [], now, now⟩
           ((fieldList data.folders).any
             (fun f => f.name == collapseWS (pyStrip name))), none)) ∧
    (∀ (data : HistoryDoc) (title : String)
       (initial_messages : Option (List InMsg)) (ds : Bool)
       (tools : Option (List String)) (loc doc : Option String) (cu : String)
       (now : Int) (mu : Nat → String) (mt : Nat → Int) (built : List Message),
       pyStrip title ≠ "" →
       buildMsgs "anthropic" "claude-sonnet-4-20250514" mu mt
         (initial_messages.getD []) 0 = some built →
       ∃ chatObj, create_chat (some data) title none none none initial_messages
           ds tools loc doc false cu now mu mt = (.preview chatObj none, none) ∧
         chatObj.uuid = cu ∧ chatObj.messages = built) := by
  refine ⟨?_, ?_, ?_, ?_, ?_, ?_, ?_, ?_⟩
  · intro pathSet fileExists parsed name prompt genId
    simp only [create_expert, Bool.not_false, eq_self_iff_true, if_true]
    repeat' split
    all_goals rfl
  · intro pathSet fileExists parsed id name nn np ns
    simp only [update_expert, Bool.not_false, eq_self_iff_true, if_true]
    repeat' split
    all_goals rfl
  · intro load name genId now
    simp only [create_folder, Bool.not_false, eq_self_iff_true, if_true]
    repeat' split
    all_goals rfl
  · intro load title engine model folder_id ims ds tools locale docrepo cu now mu mt
    simp only [create_chat, Bool.not_false, eq_self_iff_true, if_true]
    repeat' split
    all_goals rfl
  · intro current name prompt genId hn hp
    simp [create_expert, hn, hp]
  · intro current id name nn np ns hids
    refine ⟨(update_expert true true (some current) id name nn np ns false).1, ?_, ?_⟩
    · have hw : (update_expert true true (some current) id name nn np ns
          false).2 = none := by
        simp only [update_expert, Bool.not_false, eq_self_iff_true, if_true]
        repeat' split
        all_goals rfl
      rw [← hw]
    · simp only [update_expert, Bool.not_false, eq_self_iff_true, if_true]
      rw [if_neg (by decide), if_neg (by decide), if_neg (by simpa using hids)]
      repeat' split
      all_goals first
        | exact Or.inl rfl
        | exact Or.inr (Or.inl rfl)
        | exact Or.inr (Or.inr (Or.inl rfl))
        | exact Or.inr (Or.inr (Or.inr (Or.inl rfl)))
        | exact Or.inr (Or.inr (Or.inr (Or.inr ⟨_, _, rfl⟩)))
  · intro data name genId now hname
    simp [create_folder, hname]
  · intro data title ims ds tools loc doc cu now mu mt built htitle hbuild
    have he : pyLower (pyStrip (pyOr none "anthropic")) = "anthropic" := by decide
    have hm : pyStrip (pyOr none "claude-sonnet-4-20250514") =
        "claude-sonnet-4-20250514" := by decide
    simp only [create_chat, he, hm]
    rw [if_neg htitle, if_neg (by decide), if_neg (by decide)]
    simp only [strFalsy, Bool.not_true, Bool.false_eq_true, if_false]
    rw [hbuild]
    exact ⟨_, rfl, rfl, rfl⟩

/-- Concrete instance of `c2_no_write_without_confirm` at explicit inputs. -/
theorem c2_witness :
    create_expert true true (some []) (some "n") (some "p") false "i" =
      (.preview ⟨"i", "user", "enabled", some "n", some "p", []⟩ false, none) ∧
    (∃ r, update_expert true true (some []) (some "x") none none none none false =
        (r, none) ∧
      (r = .notFound ∨ r = .ambiguous ∨ r = .noChanges ∨ r = .invalidState ∨
       ∃ old updated, r = .preview old updated)) ∧
    create_folder (some ⟨some none, some none⟩) "F" false "g" 1 =
      (.preview ⟨"g", "F", [], 1, 1⟩ false, none) ∧
    (∃ chatObj, create_chat (some ⟨some none, some none⟩) "T" none none none
        none false none none none false "u" 1 (fun _ => "x") (fun _ => 0) =
        (.preview chatObj none, none) ∧ chatObj.uuid = "u" ∧
      chatObj.messages = []) :=
  ⟨c2_no_write_without_confirm.2.2.2.2.1 [] (some "n") (some "p") "i"
     (by decide) (by decide),
   c2_no_write_without_confirm.2.2.2.2.2.1 [] (some "x") none none none none
     (by decide),
   c2_no_write_without_confirm.2.2.2.2.2.2.1 ⟨some none, some none⟩ "F" "g" 1
     (by decide),
   c2_no_write_without_confirm.2.2.2.2.2.2.2 ⟨some none, some none⟩ "T" none
     false none none none "u" 1 (fun _ => "x") (fun _ => 0) [] (by decide) rfl⟩

/-- A history document whose `folders` key holds one folder. -/
def c1PreDoc : HistoryDoc :=
  ⟨some (some [⟨"f1", "Old", [], 0, 0⟩]), some (some [])⟩

/-- `c1PreDoc` after `create_folder(name="New", confirm=true)` appends the
generated folder. -/
def c1PostDoc : HistoryDoc :=
  ⟨some (some [⟨"f1", "Old", [], 0, 0⟩, ⟨"gid", "New", [], 5, 5⟩]),
   some (some [])⟩

/-- C1 fails on the code: `create_folder(confirm=true)` on a document with a
non-empty `folders` list writes a backup equal to the *post*-mutation
document (`_write_history_atomic` dumps its already-mutated argument to the
`.bak` file), which differs from the pre-mutation document. -/
theorem c1_counterexample :
    (create_folder (some c1PreDoc) "New" true "gid" 5).2 =
      some ⟨c1PostDoc, c1PostDoc⟩ ∧ c1PostDoc ≠ c1PreDoc := by
  constructor
  · rfl
  · decide

/-- C1 amended: `create_expert` and `update_expert` write a backup that
serializes the pre-mutation `experts.json` array; `create_folder` and
`create_chat` instead back up the same post-mutation document that is
written to `history.json` (so whenever the mutation changes the document,
the backup is not the pre-mutation state). -/
theorem c1_backup_contents :
    (∀ (pathSet fileExists : Bool) (current : List Expert)
       (name prompt : Option String) (genId : String) r w,
       create_expert pathSet fileExists (some current) name prompt true genId =
         (r, some w) → w.backup = current) ∧
    (∀ (pathSet fileExists : Bool) (current : List Expert)
       (id name new_name new_prompt new_state : Option String) r w,
       update_expert pathSet fileExists (some current) id name new_name
         new_prompt new_state true = (r, some w) → w.backup = current) ∧
    (∀ (load : Option HistoryDoc) (name : String) (genId : String) (now : Int) r w,
       create_folder load name true genId now = (r, some w) →
         w.backup = w.written) ∧
    (∀ (load : Option HistoryDoc) (title : String)
       (engine model folder_id : Option String)
       (initial_messages : Option (List InMsg)) (disableStreaming : Bool)
       (tools : Option (List String)) (locale docrepo : Option String)
       (chatUuid : String) (now : Int) (msgUuid : Nat → String)
       (msgTime : Nat → Int) r w,
       create_chat load title engine model folder_id initial_messages
         disableStreaming tools locale docrepo true chatUuid now msgUuid msgTime =
         (r, some w) → w.backup = w.written) := by
  refine ⟨?_, ?_, ?_, ?_⟩
  · intro ps fe cur nm pr genId r w h
    simp only [create_expert] at h
    repeat' split at h
    all_goals injection h with h1 h2
    all_goals first
      | exact Option.noConfusion h2
      | (injection h2 with h3; subst h3; rfl)
  · intro ps fe cur id nm nn np ns r w h
    simp only [update_expert] at h
    repeat' split at h
    all_goals injection h with h1 h2
    all_goals first
      | exact Option.noConfusion h2
      | (injection h2 with h3; subst h3; rfl)
  · intro load nm genId now r w h
    simp only [create_folder] at h
    repeat' split at h
    all_goals injection h with h1 h2
    all_goals first
      | exact Option.noConfusion h2
      | (injection h2 with h3; subst h3; rfl)
  · intro load title e mo fid ims ds tools loc doc cu now mu mt r w h
    simp only [create_chat] at h
    repeat' split at h
    all_goals injection h with h1 h2
    all_goals first
      | exact Option.noConfusion h2
      | (injection h2 with h3; subst h3; rfl)

/-- Concrete instance of `c1_backup_contents` at explicit inputs. -/
theorem c1_witness :
    HistoryWrite.backup ⟨c1PostDoc, c1PostDoc⟩ =
      HistoryWrite.written ⟨c1PostDoc, c1PostDoc⟩ ∧
    ExpertsWrite.backup ⟨[], [⟨"i", "user", "enabled", some "n", some "p", []⟩]⟩ =
      [] :=
  ⟨c1_backup_contents.2.2.1 (some c1PreDoc) "New" "gid" 5
     (.persisted "gid") ⟨c1PostDoc, c1PostDoc⟩ rfl,
   c1_backup_contents.1 true true [] (some "n") (some "p") "i"
     (.persisted "i") ⟨[], [⟨"i", "user", "enabled", some "n", some "p", []⟩]⟩ rfl⟩

/-- C6 fails on the code: `create_expert` does not trim its required fields —
a whitespace-only name is empty after trimming, yet the call is not rejected:
with `confirm=true` it persists an expert whose name is `" "`. -/
theorem c6_counterexample :
    pyStrip " " = "" ∧
    create_expert true true (some []) (some " ") (some "p") true "id0" =
      (.persisted "id0",
       some ⟨[], [⟨"id0", "user", "enabled", some " ", some "p", []⟩]⟩) :=
  ⟨by decide, rfl⟩

/-- C6 amended: validation rejections never write — `create_folder` and
`create_chat` reject a required field that is empty after trimming,
`create_chat` rejects an initial message whose role is outside
`{system, user, assistant}`, and `update_expert` rejects a `new_state`
outside `{enabled, disabled}` (the `new_state="archived"` scenario, with the
document untouched); `create_expert`, however, checks `name`/`prompt` only
for being missing or empty *without* trimming, so a whitespace-only value
passes its validation. -/
theorem c6_validation_rejections :
    (∀ (load : Option HistoryDoc) (name : String) (confirm : Bool)
       (genId : String) (now : Int), pyStrip name = "" →
       create_folder load name confirm genId now = (.errName, none)) ∧
    (∀ (load : Option HistoryDoc) (title : String)
       (engine model folder_id : Option String)
       (initial_messages : Option (List InMsg)) (disableStreaming : Bool)
       (tools : Option (List String)) (locale docrepo : Option String)
       (confirm : Bool) (chatUuid : String) (now : Int)
       (msgUuid : Nat → String) (msgTime : Nat → Int), pyStrip title = "" →
       create_chat load title engine model folder_id initial_messages
         disableStreaming tools locale docrepo confirm chatUuid now msgUuid msgTime =
         (.errTitle, none)) ∧
    (∀ (parsed : Option (List Expert)) (name prompt : Option String)
       (confirm : Bool) (genId : String),
       strFalsy name = true ∨ strFalsy prompt = true →
       create_expert true true parsed name prompt confirm genId =
         (.errMissingData, none)) ∧
    (∀ (engineNorm modelNorm : String) (msgUuid : Nat → String)
       (msgTime : Nat → Int) (msgs : List InMsg) (i : Nat),
       (∃ m ∈ msgs, ¬(pyLower (pyStrip (m.role.getD "")) = "system" ∨
         pyLower (pyStrip (m.role.getD "")) = "user" ∨
         pyLower (pyStrip (m.role.getD "")) = "assistant")) →
       buildMsgs engineNorm modelNorm msgUuid msgTime msgs i = none) ∧
    (∀ (data : HistoryDoc) (title : String)
       (initial_messages : Option (List InMsg)) (disableStreaming : Bool)
       (tools : Option (List String)) (locale docrepo : Option String)
       (confirm : Bool) (chatUuid : String) (now : Int)
       (msgUuid : Nat → String) (msgTime : Nat → Int),
       pyStrip title ≠ "" →
       buildMsgs "anthropic" "claude-sonnet-4-20250514" msgUuid msgTime
         (initial_messages.getD []) 0 = none →
       create_chat (some data) title none none none initial_messages
         disableStreaming tools locale docrepo confirm chatUuid now msgUuid msgTime =
         (.errRole, none)) ∧
    (∀ (current : List Expert) (id name new_name new_prompt : Option String)
       (s : String) (confirm : Bool) (old : Expert),
       ¬(strFalsy id = true ∧ strFalsy name = true) →
       current.find? (if !strFalsy id then (fun e => some e.id == id)
         else (fun e => e.name == name)) = some old →
       ¬(1 < current.countP (if !strFalsy id then (fun e => some e.id == id)
         else (fun e => e.name == name))) →
       s ≠ "enabled" → s ≠ "disabled" →
       update_expert true true (some current) id name new_name new_prompt
         (some s) confirm = (.invalidState, none)) := by
  refine ⟨?_, ?_, ?_, ?_, ?_, ?_⟩
  · intro load name confirm genId now h
    simp [create_folder, h]
  · intro load title e mo fid ims ds tools loc doc confirm cu now mu mt h
    simp [create_chat, h]
  · intro parsed name prompt confirm genId h
    rcases h with h | h <;> simp [create_expert, h]
  · intro en mn mu mt msgs i hex
    induction msgs generalizing i with
    | nil => simp at hex
    | cons m rest ih =>
      rcases hex with ⟨mb, hmb, hbad⟩
      rcases List.mem_cons.mp hmb with hmb | hmb
      · subst hmb
        rw [buildMsgs, if_neg hbad]
      · rw [buildMsgs]
        split
        · rw [ih (i + 1) ⟨mb, hmb, hbad⟩]
        · rfl
  · intro data title ims ds tools loc doc confirm cu now mu mt htitle hbuild
    have he : pyLower (pyStrip (pyOr none "anthropic")) = "anthropic" := by decide
    have hm : pyStrip (pyOr none "claude-sonnet-4-20250514") =
        "claude-sonnet-4-20250514" := by decide
    simp only [create_chat, he, hm]
    rw [if_neg htitle, if_neg (by decide), if_neg (by decide)]
    simp only [strFalsy, Bool.not_true, Bool.false_eq_true, if_false]
    rw [hbuild]
  · intro current id name nn np s confirm old hids hfind hcount hs1 hs2
    simp only [update_expert]
    rw [if_neg (by decide), if_neg (by decide), if_neg (by simpa using hids)]
    simp only [hfind]
    rw [if_neg hcount]
    rw [if_neg (by simp)]
    have : (decide (s ≠ "enabled" ∧ s ≠ "disabled")) = true := by
      simp [hs1, hs2]
    simp only [this, if_true]

/-- The `update_expert(name="Alice", new_state="archived", confirm=true)`
scenario as a concrete instance of `c6_validation_rejections`, plus concrete
instances of the trim-rejection conjuncts. -/
theorem c6_witness :
    update_expert true true
        (some [⟨"i1", "user", "enabled", some "Alice", none, []⟩]) none
        (some "Alice") none none (some "archived") true =
      (.invalidState, none) ∧
    create_folder (some ⟨some none, some none⟩) "  " false "g" 1 =
      (.errName, none) ∧
    create_expert true true (some []) none (some "p") true "g" =
      (.errMissingData, none) :=
  ⟨c6_validation_rejections.2.2.2.2.2
     [⟨"i1", "user", "enabled", some "Alice", none, []⟩] none (some "Alice")
     none none "archived" true ⟨"i1", "user", "enabled", some "Alice", none, []⟩
     (by decide) rfl (by decide) (by decide) (by decide),
   c6_validation_rejections.1 (some ⟨some none, some none⟩) "  " false "g" 1
     (by decide),
   c6_validation_rejections.2.2.1 (some []) none (some "p") true "g"
     (Or.inl (by decide))⟩

theorem chatKeyTS_lm (c : Chat) :
    chatKeyTS "lastModified" true c = (-c.lastModified, -c.createdAt, c.uuid.data) := rfl

theorem chatKeyTS_ca (c : Chat) :
    chatKeyTS "createdAt" true c = (-c.createdAt, -c.lastModified, c.uuid.data) := rfl

theorem sortChats_lm (l : List Chat) :
    sortChats "lastModified" l = List.insertionSort (chatLE_TS "lastModified" true) l := rfl

theorem sortChats_mlm (l : List Chat) :
    sortChats "-lastModified" l = List.insertionSort (chatLE_TS "lastModified" true) l := rfl

theorem sortChats_ca (l : List Chat) :
    sortChats "createdAt" l = List.insertionSort (chatLE_TS "createdAt" true) l := rfl

theorem sortChats_mca (l : List Chat) :
    sortChats "-createdAt" l = List.insertionSort (chatLE_TS "createdAt" true) l := rfl

theorem sortChats_title (l : List Chat) :
    sortChats "title" l = List.insertionSort (chatLE_Title false) l := rfl

theorem sortChats_mtitle (l : List Chat) :
    sortChats "-title" l = List.insertionSort (chatLE_Title true) l := rfl

theorem chatLE_TS_lm_iff (c d : Chat) :
    chatLE_TS "lastModified" true c d ↔
      (d.lastModified < c.lastModified ∨ (c.lastModified = d.lastModified ∧
        (d.createdAt < c.createdAt ∨ (c.createdAt = d.createdAt ∧
          c.uuid.data ≤ d.uuid.data)))) := by
  unfold chatLE_TS
  rw [chatKeyTS_lm, chatKeyTS_lm]
  unfold lex3
  dsimp only
  constructor
  · rintro (h | ⟨e, h | ⟨e2, h3⟩⟩)
    · exact Or.inl (by omega)
    · exact Or.inr ⟨by omega, Or.inl (by omega)⟩
    · exact Or.inr ⟨by omega, Or.inr ⟨by omega, h3⟩⟩
  · rintro (h | ⟨e, h | ⟨e2, h3⟩⟩)
    · exact Or.inl (by omega)
    · exact Or.inr ⟨by omega, Or.inl (by omega)⟩
    · exact Or.inr ⟨by omega, Or.inr ⟨by omega, h3⟩⟩

theorem chatLE_TS_ca_iff (c d : Chat) :
    chatLE_TS "createdAt" true c d ↔
      (d.createdAt < c.createdAt ∨ (c.createdAt = d.createdAt ∧
        (d.lastModified < c.lastModified ∨ (c.lastModified = d.lastModified ∧
          c.uuid.data ≤ d.uuid.data)))) := by
  unfold chatLE_TS
  rw [chatKeyTS_ca, chatKeyTS_ca]
  unfold lex3
  dsimp only
  constructor
  · rintro (h | ⟨e, h | ⟨e2, h3⟩⟩)
    · exact Or.inl (by omega)
    · exact Or.inr ⟨by omega, Or.inl (by omega)⟩
    · exact Or.inr ⟨by omega, Or.inr ⟨by omega, h3⟩⟩
  · rintro (h | ⟨e, h | ⟨e2, h3⟩⟩)
    · exact Or.inl (by omega)
    · exact Or.inr ⟨by omega, Or.inl (by omega)⟩
    · exact Or.inr ⟨by omega, Or.inr ⟨by omega, h3⟩⟩

theorem chatKeyTitle_f (c : Chat) :
    chatKeyTitle false c = ((pyLower c.title).data, c.lastModified, c.uuid.data) := rfl

theorem chatKeyTitle_t (c : Chat) :
    chatKeyTitle true c = ((pyLower c.title).data, -c.lastModified, c.uuid.data) := rfl

theorem chatLE_Title_f_iff (c d : Chat) :
    chatLE_Title false c d ↔
      ((pyLower c.title).data < (pyLower d.title).data ∨
       ((pyLower c.title).data = (pyLower d.title).data ∧
        (c.lastModified < d.lastModified ∨ (c.lastModified = d.lastModified ∧
          c.uuid.data ≤ d.uuid.data)))) := by
  unfold chatLE_Title
  rw [chatKeyTitle_f, chatKeyTitle_f]
  unfold lex3
  exact Iff.rfl

theorem chatLE_Title_t_iff (c d : Chat) :
    chatLE_Title true c d ↔
      ((pyLower c.title).data < (pyLower d.title).data ∨
       ((pyLower c.title).data = (pyLower d.title).data ∧
        (d.lastModified < c.lastModified ∨ (c.lastModified = d.lastModified ∧
          c.uuid.data ≤ d.uuid.data)))) := by
  unfold chatLE_Title
  rw [chatKeyTitle_t, chatKeyTitle_t]
  unfold lex3
  dsimp only
  constructor
  · rintro (h | ⟨e, h | ⟨e2, h3⟩⟩)
    · exact Or.inl h
    · exact Or.inr ⟨e, Or.inl (by omega)⟩
    · exact Or.inr ⟨e, Or.inr ⟨by omega, h3⟩⟩
  · rintro (h | ⟨e, h | ⟨e2, h3⟩⟩)
    · exact Or.inl h
    · exact Or.inr ⟨e, Or.inl (by omega)⟩
    · exact Or.inr ⟨e, Or.inr ⟨by omega, h3⟩⟩

/-- Chat with `lastModified = createdAt = 1`. -/
def c3ChatA : Chat := ⟨"a", "", 1, 1, "", "", false, [], none, none, []⟩

/-- Chat with `lastModified = createdAt = 2`. -/
def c3ChatB : Chat := ⟨"b", "", 2, 2, "", "", false, [], none, none, []⟩

/-- Chat titled `"a"`. -/
def c3ChatC : Chat := ⟨"c", "a", 1, 1, "", "", false, [], none, none, []⟩

/-- Chat titled `"b"`. -/
def c3ChatD : Chat := ⟨"d", "b", 1, 1, "", "", false, [], none, none, []⟩

/-- C3 fails on the code: the bare key `"lastModified"` sorts *descending*
(`_parse_order` forces `reverse` for the timestamp keys even without the
`-` prefix), and `"-title"` still sorts the titles *ascending* (the title
component of the key tuple is never reversed). -/
theorem c3_counterexample :
    c3ChatA.lastModified < c3ChatB.lastModified ∧
    sortChats "lastModified" [c3ChatA, c3ChatB] = [c3ChatB, c3ChatA] ∧
    sortChats "lastModified" [c3ChatA, c3ChatB] ≠ [c3ChatA, c3ChatB] ∧
    (pyLower c3ChatC.title).data < (pyLower c3ChatD.title).data ∧
    sortChats "-title" [c3ChatC, c3ChatD] = [c3ChatC, c3ChatD] := by
  refine ⟨by decide, by decide, by decide, by decide, by decide⟩

/-- C3 amended: for the timestamp keys `lastModified` and `createdAt`, the
bare key and the `-`-prefixed key both sort descending by that key (the
prefix has no effect); for `title`, both forms sort ascending by the
case-folded title — the prefix only flips the direction of the
`lastModified` tie-break. -/
theorem c3_order_directions :
    (∀ l : List Chat, sortChats "lastModified" l = sortChats "-lastModified" l) ∧
    (∀ l : List Chat, sortChats "createdAt" l = sortChats "-createdAt" l) ∧
    (∀ l : List Chat, (sortChats "lastModified" l).Pairwise
      (fun c d => d.lastModified ≤ c.lastModified)) ∧
    (∀ l : List Chat, (sortChats "createdAt" l).Pairwise
      (fun c d => d.createdAt ≤ c.createdAt)) ∧
    (∀ l : List Chat, (sortChats "title" l).Pairwise
      (fun c d => (pyLower c.title).data ≤ (pyLower d.title).data)) ∧
    (∀ l : List Chat, (sortChats "-title" l).Pairwise
      (fun c d => (pyLower c.title).data ≤ (pyLower d.title).data)) := by
  refine ⟨fun l => rfl, fun l => rfl, ?_, ?_, ?_, ?_⟩
  · intro l
    rw [sortChats_lm]
    exact (List.sorted_insertionSort _ l).imp (fun h => by
      rcases (chatLE_TS_lm_iff _ _).mp h with h | ⟨e, -⟩ <;> omega)
  · intro l
    rw [sortChats_ca]
    exact (List.sorted_insertionSort _ l).imp (fun h => by
      rcases (chatLE_TS_ca_iff _ _).mp h with h | ⟨e, -⟩ <;> omega)
  · intro l
    rw [sortChats_title]
    exact (List.sorted_insertionSort _ l).imp (fun h => by
      rcases (chatLE_Title_f_iff _ _).mp h with h | ⟨e, -⟩
      · exact le_of_lt h
      · exact le_of_eq e)
  · intro l
    rw [sortChats_mtitle]
    exact (List.sorted_insertionSort _ l).imp (fun h => by
      rcases (chatLE_Title_t_iff _ _).mp h with h | ⟨e, -⟩
      · exact le_of_lt h
      · exact le_of_eq e)

/-- Chat with `uuid="a"`, `createdAt=1`, `lastModified=5`. -/
def c4ChatP : Chat := ⟨"a", "", 1, 5, "", "", false, [], none, none, []⟩

/-- Chat with `uuid="b"`, `createdAt=2`, `lastModified=5`. -/
def c4ChatQ : Chat := ⟨"b", "", 2, 5, "", "", false, [], none, none, []⟩

/-- C4 fails on the code: under the default order (`-lastModified`), two
chats with equal `lastModified` are ordered by `createdAt` *descending* (the
key tuple negates the secondary timestamp too), not ascending as claimed. -/
theorem c4_counterexample :
    c4ChatP.lastModified = c4ChatQ.lastModified ∧
    c4ChatP.createdAt < c4ChatQ.createdAt ∧
    c4ChatP.uuid.data < c4ChatQ.uuid.data ∧
    sortChats "-lastModified" [c4ChatP, c4ChatQ] = [c4ChatQ, c4ChatP] ∧
    sortChats "-lastModified" [c4ChatP, c4ChatQ] ≠ [c4ChatP, c4ChatQ] := by
  refine ⟨by decide, by decide, by decide, by decide, by decide⟩

/-- C4 amended: the default order is `lastModified` descending; for the
timestamp keys, records with equal primary key are ordered by the other
timestamp *descending*, then by identifier ascending; for `title`,
comparison is case-folded with ties broken by `lastModified` (ascending for
the bare key, descending for the prefixed key) then identifier ascending;
and the output is always a permutation of the input, fully determined by the
key tuples, so identical input yields identical output. -/
theorem c4_tie_breaks :
    parse_order "-lastModified" = ("lastModified", true) ∧
    (∀ l : List Chat, (sortChats "-lastModified" l).Pairwise (fun c d =>
      d.lastModified < c.lastModified ∨ (c.lastModified = d.lastModified ∧
        (d.createdAt < c.createdAt ∨ (c.createdAt = d.createdAt ∧
          c.uuid.data ≤ d.uuid.data))))) ∧
    (∀ l : List Chat, (sortChats "createdAt" l).Pairwise (fun c d =>
      d.createdAt < c.createdAt ∨ (c.createdAt = d.createdAt ∧
        (d.lastModified < c.lastModified ∨ (c.lastModified = d.lastModified ∧
          c.uuid.data ≤ d.uuid.data))))) ∧
    (∀ l : List Chat, (sortChats "title" l).Pairwise (fun c d =>
      (pyLower c.title).data < (pyLower d.title).data ∨
      ((pyLower c.title).data = (pyLower d.title).data ∧
        (c.lastModified < d.lastModified ∨ (c.lastModified = d.lastModified ∧
          c.uuid.data ≤ d.uuid.data))))) ∧
    (∀ l : List Chat, (sortChats "-title" l).Pairwise (fun c d =>
      (pyLower c.title).data < (pyLower d.title).data ∨
      ((pyLower c.title).data = (pyLower d.title).data ∧
        (d.lastModified < c.lastModified ∨ (c.lastModified = d.lastModified ∧
          c.uuid.data ≤ d.uuid.data))))) ∧
    (∀ (order : String) (l : List Chat), (sortChats order l).Perm l) := by
  refine ⟨by decide, ?_, ?_, ?_, ?_, ?_⟩
  · intro l
    rw [sortChats_mlm]
    exact (List.sorted_insertionSort _ l).imp
      (fun h => (chatLE_TS_lm_iff _ _).mp h)
  · intro l
    rw [sortChats_ca]
    exact (List.sorted_insertionSort _ l).imp
      (fun h => (chatLE_TS_ca_iff _ _).mp h)
  · intro l
    rw [sortChats_title]
    exact (List.sorted_insertionSort _ l).imp
      (fun h => (chatLE_Title_f_iff _ _).mp h)
  · intro l
    rw [sortChats_mtitle]
    exact (List.sorted_insertionSort _ l).imp
      (fun h => (chatLE_Title_t_iff _ _).mp h)
  · intro order l
    simp only [sortChats]
    split <;> exact List.perm_insertionSort _ l

/-- A 300-character compact rendering of a structured message body. -/
def c8Rendering : String := String.mk (List.replicate 300 'a')

/-- A message whose body is structured (not textual). -/
def c8Msg : Message :=
  ⟨"user", "text", [], "m1", "", "", 0, none, false, [], none, false, false,
   none, .other c8Rendering⟩

/-- C8 fails on the code: for a chat matched via a message with a
non-textual body, the snippet is the extracted text truncated to 200
characters plus an ellipsis — not the 2000-character truncation of the
structured rendering that the claim states (the 2000-character cut happens
inside `_safe_message_text`, but `search_history` then truncates the snippet
to 200 regardless). -/
theorem c8_counterexample :
    safe_message_text c8Msg = c8Rendering ∧
    c8Rendering.length = 300 ∧
    (findSnippet "aaa" [c8Msg]).2 = some (pyTake c8Rendering 200 ++ "...") ∧
    (pyTake c8Rendering 200 ++ "...").length = 203 ∧
    pyTake c8Rendering 2000 = c8Rendering ∧
    (findSnippet "aaa" [c8Msg]).2 ≠ some (pyTake c8Rendering 2000) := by
  refine ⟨by decide, by decide, by decide, by decide, by decide, by decide⟩

/-- C8 amended: a chat matched via a message is returned with a snippet
derived from the first matching message: the extracted message text — which
for a non-textual body is the compact structured rendering truncated to 2000
characters inside `_safe_message_text` — further truncated to its first 200
characters plus an ellipsis whenever it is longer than 200 characters. -/
theorem c8_snippet_rule :
    (∀ (m : Message) (r : String), m.text = none → m.content = .other r →
       safe_message_text m = pyTake r 2000) ∧
    (∀ (ql : String) (msgs : List Message),
       (findSnippet ql msgs).2 =
         (msgs.find? (fun m => strContains (pyLower (safe_message_text m)) ql)).map
           (fun m => if (safe_message_text m).length > 200 then
             pyTake (safe_message_text m) 200 ++ "..." else safe_message_text m)) ∧
    (∀ (ql : String) (c : Chat),
       match_chat ql "messages" none none none none c = findSnippet ql c.messages) := by
  refine ⟨?_, ?_, ?_⟩
  · intro m r h1 h2
    simp [safe_message_text, h1, h2]
  · intro ql msgs
    induction msgs with
    | nil => simp [findSnippet]
    | cons m rest ih =>
      by_cases h : strContains (pyLower (safe_message_text m)) ql = true
      · have hf : List.find? (fun x => strContains (pyLower (safe_message_text x)) ql)
            (m :: rest) = some m := by
          simp [List.find?_cons, h]
        rw [hf]
        simp [findSnippet, h]
      · have hf : List.find? (fun x => strContains (pyLower (safe_message_text x)) ql)
            (m :: rest) =
            List.find? (fun x => strContains (pyLower (safe_message_text x)) ql) rest := by
          simp [List.find?_cons, h]
        have hs : findSnippet ql (m :: rest) = findSnippet ql rest := by
          simp [findSnippet, h]
        rw [hf, hs, ih]
  · intro ql c
    have hsc : scopeOf "messages" = "messages" := by decide
    rw [match_chat]
    rw [if_neg (by simp [strFalsy])]
    rw [if_neg (by simp [strFalsy])]
    rw [if_neg (by simp)]
    rw [if_neg (by simp)]
    rw [if_neg (by rw [hsc]; simp)]
    rw [if_pos (by rw [hsc]; simp)]

/-- Concrete instance of `c8_snippet_rule` at an explicit message. -/
theorem c8_witness :
    safe_message_text ⟨"user", "text", [], "m2", "", "", 0, none, false, [],
      none, false, false, none, .other "xy"⟩ = pyTake "xy" 2000 :=
  c8_snippet_rule.1 ⟨"user", "text", [], "m2", "", "", 0, none, false, [],
    none, false, false, none, .other "xy"⟩ "xy" rfl rfl

/-- Concrete instance of `c10_null_field_lost_write`: both null-key documents
at explicit inputs. -/
theorem c10_witness :
    create_folder (some ⟨some none, some none⟩) "A" true "g" 1 =
      (.persisted "g", some ⟨⟨some none, some none⟩, ⟨some none, some none⟩⟩) ∧
    create_chat (some ⟨some none, some none⟩) "T" none none none none false none
        none none true "u" 1 (fun _ => "mu") (fun _ => 2) =
      (.persisted "u" none, some ⟨⟨some none, some none⟩, ⟨some none, some none⟩⟩) :=
  ⟨c10_null_field_lost_write.1 ⟨some none, some none⟩ "A" "g" 1 rfl (by decide),
   c10_null_field_lost_write.2 ⟨some none, some none⟩ "T" "u" 1 (fun _ => "mu")
     (fun _ => 2) rfl (by decide)⟩
